import Mathlib

/-!
Shallow embedding of `src/scripts/verify-mdx/validators.mjs`.

The MDX AST produced by the external parser is modelled as a tree of
tagged nodes.  Validators are pure functions from a tree to an ordered
list of diagnostics; a JavaScript `TypeError` thrown while a validator
runs is modelled as `Except.error` carrying the error message, since the
exception aborts the whole validator call and discards any diagnostics
accumulated so far.
-/

/-- A source point: `position.start` of a unist node (`line`/`column`). -/
structure Pos where
  line : Nat
  column : Nat
deriving DecidableEq, Repr

/-- The `position` object of a unist node; only `start` is used. -/
structure Position where
  start : Pos
deriving DecidableEq, Repr

/-- One `name`/`value` attribute of an MDX component node. -/
structure Attr where
  name : String
  value : String
deriving DecidableEq, Repr

/-- A node of the parsed MDX tree: a `type` discriminant, an optional
component `name`, optional `children`, component `attributes`, an
optional source `position` and an optional text `value`. -/
inductive Node where
  | mk : String → Option String → Option (List Node) → List Attr →
      Option Position → Option String → Node

/-- The `type` discriminant of a node. -/
def Node.type : Node → String
  | .mk t _ _ _ _ _ => t

/-- The component `name` of a node (`none` for prose nodes). -/
def Node.name : Node → Option String
  | .mk _ n _ _ _ _ => n

/-- The `children` of a node (`none` when the field is absent). -/
def Node.children : Node → Option (List Node)
  | .mk _ _ c _ _ _ => c

/-- The `attributes` of a component node. -/
def Node.attributes : Node → List Attr
  | .mk _ _ _ a _ _ => a

/-- The source `position` of a node, when present. -/
def Node.position : Node → Option Position
  | .mk _ _ _ _ p _ => p

/-- The text `value` of a literal node, when present. -/
def Node.value : Node → Option String
  | .mk _ _ _ _ _ v => v

/-- Modelled from the spec: `ERROR_TYPES.VALIDATION_ERROR` comes from
`error-types.mjs`, which is not among the sources; the spec describes it
as the kind tag of structural validation errors. -/
def VALIDATION_ERROR : String := "VALIDATION_ERROR"

/-- One reported problem: optional position data spread from a node's
`position.start`, a reason string and a kind tag. -/
structure Diagnostic where
  line : Option Nat
  column : Option Nat
  reason : String
  type : String
deriving DecidableEq, Repr

/-- Message of the `TypeError` thrown by reading `.start` of an
`undefined` position. -/
def startTypeError : String := "TypeError: cannot read start of undefined"

/-- Message of the `TypeError` thrown by calling `.forEach` on an
`undefined` filtered-children value. -/
def forEachTypeError : String := "TypeError: cannot read forEach of undefined"

/-- Message of the `TypeError` thrown by calling `.filter` on an
`undefined` children value. -/
def filterTypeError : String := "TypeError: cannot read filter of undefined"

/-- Modelled from the spec: `getNodeText` is imported from
`codemods/utils/mdxast.js`, which is not among the sources; the spec
says a prose node's flattened text content is extracted, so the `value`
fields of the node and of all of its descendants are concatenated in
order. -/
def getNodeText : Node → String
  | .mk _ _ none _ _ v => v.getD ""
  | .mk _ _ (some cs) _ _ v => v.getD "" ++ getNodeTextList cs
where
  /-- Concatenated flattened text of a list of nodes. -/
  getNodeTextList : List Node → String
    | [] => ""
    | n :: ns => getNodeText n ++ getNodeTextList ns

/-- Modelled from the spec: `isEmptyParagraph` is imported from
`codemods/utils/mdxast.js`, which is not among the sources; the spec
tolerates incidental empty-prose nodes, so this holds for a paragraph
node whose flattened text content is empty. -/
def isEmptyParagraph (n : Node) : Bool :=
  n.type == "paragraph" && getNodeText n == ""

/-- JavaScript `text.replace(newline, empty)`: removes only the first
newline occurrence. -/
def removeFirstNewline : List Char → List Char
  | [] => []
  | c :: cs => if c = '\n' then cs else c :: removeFirstNewline cs

/-- `text.slice(0, 30)` followed by appending `...` when the slice
shortened the text. -/
def truncate30 (text : String) : String :=
  let t := String.mk (text.data.take 30)
  if t.length != text.length then t ++ "..." else t

/-- `nodeDescriptor` from validators.mjs: `<Name>` for an MDX block
element, a quoted truncated snippet for a paragraph, otherwise the
node's type tag. -/
def nodeDescriptor (node : Node) : String :=
  if node.type == "mdxBlockElement" then
    "<" ++ (node.name.getD "undefined") ++ ">"
  else if node.type == "paragraph" then
    let text := String.mk (removeFirstNewline (getNodeText node).data)
    "\x22" ++ truncate30 text ++ "\x22"
  else
    node.type

/-- First-occurrence deduplication with an accumulator of already seen
keys: the key list of a JavaScript `Map`/`Set` built by insertion. -/
def dedupFirstAux (seen : List String) : List String → List String
  | [] => []
  | x :: xs =>
    if x ∈ seen then dedupFirstAux seen xs
    else x :: dedupFirstAux (x :: seen) xs

/-- Distinct elements of a list in first-occurrence order: the iteration
order of the keys of `new Map(l.map(v, attr))` / of a `Set`. -/
def dedupFirst (l : List String) : List String :=
  dedupFirstAux [] l

/-- One step of the frequency count in `getDuplicateIdAttributes`:
`counts.set(id, (counts.get(id) ?? 0) + 1)` on an insertion-ordered
map modelled as an association list. -/
def bumpCount (counts : List (String × Nat)) (id : String) : List (String × Nat) :=
  if counts.any (fun p => p.1 == id) then
    counts.map (fun p => if p.1 == id then (p.1, p.2 + 1) else p)
  else
    counts ++ [(id, 1)]

/-- `getDuplicateIdAttributes` from validators.mjs: count the attribute
values, keep the values with count above one, in first-occurrence
order. -/
def getDuplicateIdAttributes (attributes : List Attr) : List String :=
  ((attributes.foldl (fun m a => bumpCount m a.value) []).filter
    (fun p => decide (1 < p.2))).map Prod.fst

/-- Fixed part of the reason emitted for a disallowed `<Tabs>` child. -/
def tabsChildPre : String :=
  "<Tabs> component must only contain <TabsBar> and <TabsPages> components as immediate children but found "

/-- Fixed part of the reason emitted for a disallowed `<Steps>` child. -/
def stepsChildPre : String :=
  "<Steps> component must only contain <Step> components as immediate children but found "

/-- Reason of the diagnostic for a `<Tabs>` wrapper with no `<TabsBar>`. -/
def missingBarReason : String :=
  "No <TabsBar> found! <Tabs> component must contain <TabsBar> as an immediate child"

/-- Reason of the diagnostic for a `<Tabs>` wrapper with no `<TabsPages>`. -/
def missingPagesReason : String :=
  "No <TabsPages> found! <Tabs> component must contain <TabsPages> as an immediate child"

/-- Fixed front part of a bar-item pairing reason. -/
def barPairPre : String := "Found a <TabsBarItem> with id \x22"

/-- Fixed back part of a bar-item pairing reason. -/
def barPairSuf : String :=
  "\x22 but no corresponding <TabsPageItem>. Tabs components must come in pairs."

/-- Fixed front part of a page-item pairing reason. -/
def pagePairPre : String := "Found a <TabsPageItem> with id \x22"

/-- Fixed back part of a page-item pairing reason. -/
def pagePairSuf : String :=
  "\x22 but no corresponding <TabsBarItem>. Tabs components must come in pairs."

/-- Fixed front part of a duplicate bar-item id reason. -/
def barDupePre : String := "Found a <TabsBarItem> with a duplicate id \x22"

/-- Fixed back part of a duplicate bar-item id reason. -/
def barDupeSuf : String := "\x22. <TabsBarItem>s must have unique ids."

/-- Fixed front part of a duplicate page-item id reason. -/
def pageDupePre : String := "Found a <TabsPageItem> with a duplicate id \x22"

/-- Fixed back part of a duplicate page-item id reason. -/
def pageDupeSuf : String := "\x22. <TabsPageItem>s must have unique ids."

/-- Reason of the diagnostic for a disallowed `<Tabs>` child. -/
def tabsChildReason (c : Node) : String := tabsChildPre ++ nodeDescriptor c

/-- Reason of the diagnostic for a disallowed `<Steps>` child. -/
def stepsChildReason (c : Node) : String := stepsChildPre ++ nodeDescriptor c

/-- A diagnostic anchored at a child node's own start position, as built
by spreading `child.position.start` into the error object. -/
def mkChildDiag (reasonOf : Node → String) (c : Node) : Diagnostic :=
  { line := c.position.map (fun P => P.start.line)
    column := c.position.map (fun P => P.start.column)
    reason := reasonOf c
    type := VALIDATION_ERROR }

/-- The child-anchored diagnostic construction as run by the code:
reading `child.position.start` throws when the position is absent. -/
def childDiagE (reasonOf : Node → String) (c : Node) : Except String Diagnostic :=
  match c.position with
  | none => .error startTypeError
  | some _ => .ok (mkChildDiag reasonOf c)

/-- Effectful map over a list, stopping at the first error: a
`forEach` loop whose body may throw. -/
def mapE (f : α → Except String β) : List α → Except String (List β)
  | [] => .ok []
  | a :: as =>
    match f a with
    | .error e => .error e
    | .ok b =>
      match mapE f as with
      | .error e => .error e
      | .ok bs => .ok (b :: bs)

/-- A pairing diagnostic at the wrapper's start (`tabs.position?.start ?? empty`)
for a bar item id with no corresponding page item. -/
def mkBarPairDiag (p : Option Pos) (id : String) : Diagnostic :=
  { line := p.map Pos.line, column := p.map Pos.column
    reason := barPairPre ++ (id ++ barPairSuf), type := VALIDATION_ERROR }

/-- A pairing diagnostic at the wrapper's start for a page item id with
no corresponding bar item. -/
def mkPagePairDiag (p : Option Pos) (id : String) : Diagnostic :=
  { line := p.map Pos.line, column := p.map Pos.column
    reason := pagePairPre ++ (id ++ pagePairSuf), type := VALIDATION_ERROR }

/-- A duplicate bar-item id diagnostic at the wrapper's start. -/
def mkBarDupeDiag (p : Option Pos) (id : String) : Diagnostic :=
  { line := p.map Pos.line, column := p.map Pos.column
    reason := barDupePre ++ (id ++ barDupeSuf), type := VALIDATION_ERROR }

/-- A duplicate page-item id diagnostic at the wrapper's start. -/
def mkPageDupeDiag (p : Option Pos) (id : String) : Diagnostic :=
  { line := p.map Pos.line, column := p.map Pos.column
    reason := pageDupePre ++ (id ++ pageDupeSuf), type := VALIDATION_ERROR }

/-- The wrapper-anchored diagnostic for a missing `<TabsBar>`, built
from `tabs.position.start`. -/
def mkMissingBarDiag (P : Position) : Diagnostic :=
  { line := some P.start.line, column := some P.start.column
    reason := missingBarReason, type := VALIDATION_ERROR }

/-- The wrapper-anchored diagnostic for a missing `<TabsPages>`. -/
def mkMissingPagesDiag (P : Position) : Diagnostic :=
  { line := some P.start.line, column := some P.start.column
    reason := missingPagesReason, type := VALIDATION_ERROR }

/-- `node.children.filter(child.name === TabsBar)`. -/
def tabsBarListOf (cs : List Node) : List Node :=
  cs.filter (fun c => c.name == some "TabsBar")

/-- `node.children.filter(child.name === TabsPages)`. -/
def tabsPagesListOf (cs : List Node) : List Node :=
  cs.filter (fun c => c.name == some "TabsPages")

/-- The disallowed immediate children of a `<Tabs>` wrapper: neither a
`<TabsBar>` nor a `<TabsPages>` nor an empty paragraph. -/
def nonTabChildren (cs : List Node) : List Node :=
  cs.filter (fun c =>
    !(c.name == some "TabsBar") && !(c.name == some "TabsPages") &&
      !(isEmptyParagraph c))

/-- The id attributes of the items of the given name among a collection
node's children: filter the items, flatten their attributes, keep the
attributes named `id`. -/
def itemIdAttrs (itemName : String) (cs : List Node) : List Attr :=
  ((cs.filter (fun c => c.name == some itemName)).flatMap Node.attributes).filter
    (fun a => a.name == "id")

/-- The id values of the `<TabsBarItem>`s among a bar's children. -/
def barIdValues (bcs : List Node) : List String :=
  (itemIdAttrs "TabsBarItem" bcs).map Attr.value

/-- The id values of the `<TabsPageItem>`s among a pages' children. -/
def pageIdValues (pcs : List Node) : List String :=
  (itemIdAttrs "TabsPageItem" pcs).map Attr.value

/-- The item-level part of `validateTabs` for one wrapper: id
collection, set-difference pairing diagnostics, duplicate-id
diagnostics.  Reading `children.filter` of an absent children field
throws. -/
def tabsItemChecks (tabs bar pages : Node) (errors : List Diagnostic) :
    Except String (List Diagnostic) :=
  match bar.children with
  | none => .error filterTypeError
  | some bcs =>
    match pages.children with
    | none => .error filterTypeError
    | some pcs =>
      let p : Option Pos := tabs.position.map Position.start
      let barUniq := dedupFirst (barIdValues bcs)
      let pageUniq := dedupFirst (pageIdValues pcs)
      .ok (errors
        ++ (barUniq.filter (fun id => !(pageUniq.contains id))).map (mkBarPairDiag p)
        ++ (pageUniq.filter (fun id => !(barUniq.contains id))).map (mkPagePairDiag p)
        ++ (getDuplicateIdAttributes (itemIdAttrs "TabsBarItem" bcs)).map (mkBarDupeDiag p)
        ++ (getDuplicateIdAttributes (itemIdAttrs "TabsPageItem" pcs)).map (mkPageDupeDiag p))

/-- The missing-collection step of `validateTabs` for one wrapper:
pushes a wrapper-anchored diagnostic per absent collection (reading
`tabs.position.start` unconditionally) and short-circuits, or hands the
single bar and pages over to the item checks. -/
def validateTabsRest (tabs : Node) (optBar optPages : Option Node)
    (errors : List Diagnostic) : Except String (List Diagnostic) :=
  match optBar, optPages with
  | some bar, some pages => tabsItemChecks tabs bar pages errors
  | some _, none =>
    match tabs.position with
    | none => .error startTypeError
    | some P => .ok (errors ++ [mkMissingPagesDiag P])
  | none, some _ =>
    match tabs.position with
    | none => .error startTypeError
    | some P => .ok (errors ++ [mkMissingBarDiag P])
  | none, none =>
    match tabs.position with
    | none => .error startTypeError
    | some P => .ok (errors ++ [mkMissingBarDiag P, mkMissingPagesDiag P])

/-- The structural steps of `validateTabs` for one wrapper after the
disallowed-children scan: the more-than-one checks read
`filteredArray.position.start`, which throws since a filtered array has
no position field; then the first bar and pages feed the rest. -/
def tabsStructureCheck (tabs : Node) (cs : List Node)
    (errors : List Diagnostic) : Except String (List Diagnostic) :=
  if (tabsBarListOf cs).length > 1 then .error startTypeError
  else if (tabsPagesListOf cs).length > 1 then .error startTypeError
  else validateTabsRest tabs (tabsBarListOf cs).head? (tabsPagesListOf cs).head? errors

/-- The whole `validateTabs` visitor body for one matched `<Tabs>` node. -/
def validateTabsNode (tabs : Node) : Except String (List Diagnostic) :=
  match tabs.children with
  | none => .error forEachTypeError
  | some cs =>
    match mapE (childDiagE tabsChildReason) (nonTabChildren cs) with
    | .error e => .error e
    | .ok errors => tabsStructureCheck tabs cs errors

/-- The `validateSteps` visitor body for one matched `<Steps>` node:
one diagnostic per immediate child not named `Step`, each anchored at
the child's start; absent children make the `forEach` throw. -/
def validateStepsNode (node : Node) : Except String (List Diagnostic) :=
  match node.children with
  | none => .error forEachTypeError
  | some cs =>
    mapE (childDiagE stepsChildReason)
      (cs.filter (fun c => !(c.name == some "Step")))

/-- Depth-first pre-order collection of the nodes satisfying the
predicate: the visit order of `unist-util-visit`. -/
def collectMatches (p : Node → Bool) : Node → List Node
  | .mk t nm none as ps v =>
    if p (.mk t nm none as ps v) then [Node.mk t nm none as ps v] else []
  | .mk t nm (some cs) as ps v =>
    (if p (.mk t nm (some cs) as ps v) then [Node.mk t nm (some cs) as ps v] else []) ++
      collectMatchesList p cs
where
  /-- Pre-order collection over a list of sibling subtrees. -/
  collectMatchesList (p : Node → Bool) : List Node → List Node
    | [] => []
    | n :: ns => collectMatches p n ++ collectMatchesList p ns

/-- Run the visitor body on every matched node in visit order,
concatenating the diagnostics; a thrown error aborts the whole run. -/
def runMatches (check : Node → Except String (List Diagnostic)) :
    List Node → Except String (List Diagnostic)
  | [] => .ok []
  | n :: ns =>
    match check n with
    | .error e => .error e
    | .ok d =>
      match runMatches check ns with
      | .error e => .error e
      | .ok ds => .ok (d ++ ds)

/-- `validateSteps` over a whole tree. -/
def validateSteps (tree : Node) : Except String (List Diagnostic) :=
  runMatches validateStepsNode (collectMatches (fun n => n.name == some "Steps") tree)

/-- `validateTabs` over a whole tree. -/
def validateTabs (tree : Node) : Except String (List Diagnostic) :=
  runMatches validateTabsNode (collectMatches (fun n => n.name == some "Tabs") tree)

/-- The registry: the exported ordered list of validators. -/
def validators : List (Node → Except String (List Diagnostic)) :=
  [validateSteps, validateTabs]

/-- Run a list of validators against one tree, flattening the
diagnostics in registration order (`validators.flatMap` in verify-mdx). -/
def runAll : List (Node → Except String (List Diagnostic)) → Node →
    Except String (List Diagnostic)
  | [], _ => .ok []
  | v :: vs, t =>
    match v t with
    | .error e => .error e
    | .ok d =>
      match runAll vs t with
      | .error e => .error e
      | .ok ds => .ok (d ++ ds)

/-- The aggregate diagnostic list of one validation pass. -/
def runValidators (tree : Node) : Except String (List Diagnostic) :=
  runAll validators tree

/-- The frequency-count association list built by
`getDuplicateIdAttributes` over a plain list of values. -/
def countsOf (vals : List String) : List (String × Nat) :=
  vals.foldl bumpCount []

/-- The bar-to-pages half of the set-difference pairing diagnostics:
one diagnostic per distinct bar id with no page id, in
first-occurrence order. -/
def barPairingDiags (p : Option Pos) (bvals pvals : List String) : List Diagnostic :=
  ((dedupFirst bvals).filter (fun id => !((dedupFirst pvals).contains id))).map
    (mkBarPairDiag p)

/-- The pages-to-bar half of the set-difference pairing diagnostics. -/
def pagePairingDiags (p : Option Pos) (bvals pvals : List String) : List Diagnostic :=
  ((dedupFirst pvals).filter (fun id => !((dedupFirst bvals).contains id))).map
    (mkPagePairDiag p)

/-- The diagnostics `validateTabs` emits for one wrapper holding exactly
one bar and one pages child: disallowed-children diagnostics, the two
pairing halves, then the two duplicate-id batches. -/
def tabsOkDiags (tabs : Node) (cs bcs pcs : List Node) : List Diagnostic :=
  (nonTabChildren cs).map (mkChildDiag tabsChildReason)
    ++ barPairingDiags (tabs.position.map Position.start) (barIdValues bcs) (pageIdValues pcs)
    ++ pagePairingDiags (tabs.position.map Position.start) (barIdValues bcs) (pageIdValues pcs)
    ++ (getDuplicateIdAttributes (itemIdAttrs "TabsBarItem" bcs)).map
        (mkBarDupeDiag (tabs.position.map Position.start))
    ++ (getDuplicateIdAttributes (itemIdAttrs "TabsPageItem" pcs)).map
        (mkPageDupeDiag (tabs.position.map Position.start))

/-- Written from the specification words, for comparison with
`nodeDescriptor`: the flattened text content with all embedded newlines
stripped, truncated to 30 characters and quoted. -/
def specParagraphDescription (n : Node) : String :=
  "\x22" ++ truncate30 (String.mk ((getNodeText n).data.filter (fun c => c != '\n'))) ++ "\x22"

/-- A position literal for sample trees. -/
def samplePosition (l c : Nat) : Position := ⟨⟨l, c⟩⟩

/-- A text leaf for sample trees. -/
def sampleText (s : String) : Node :=
  .mk "text" none none [] (some (samplePosition 1 1)) (some s)

/-- An MDX block element for sample trees. -/
def sampleComp (nm : String) (attrs : List Attr) (cs : List Node) (l c : Nat) : Node :=
  .mk "mdxBlockElement" (some nm) (some cs) attrs (some (samplePosition l c)) none

/-- A `<Tabs>` wrapper holding exactly one bar and one pages child. -/
def tabsWith (P : Position) (bar pages : Node) : Node :=
  .mk "mdxBlockElement" (some "Tabs") (some [bar, pages]) [] (some P) none

/-- A `<TabsBar>` collection node with the given children. -/
def barWith (P : Position) (cs : List Node) : Node :=
  .mk "mdxBlockElement" (some "TabsBar") (some cs) [] (some P) none

/-- A `<TabsPages>` collection node with the given children. -/
def pagesWith (P : Position) (cs : List Node) : Node :=
  .mk "mdxBlockElement" (some "TabsPages") (some cs) [] (some P) none

/-- A bar item with one id attribute, for sample trees. -/
def sampleBarItem (id : String) : Node :=
  sampleComp "TabsBarItem" [⟨"id", id⟩] [] 2 3

/-- A page item with one id attribute, for sample trees. -/
def samplePageItem (id : String) : Node :=
  sampleComp "TabsPageItem" [⟨"id", id⟩] [] 6 3

/-- A `<Tabs>` wrapper with two `<TabsBar>` children: the failing input
of the more-than-one check. -/
def twoBarsTabs : Node :=
  sampleComp "Tabs" []
    [sampleComp "TabsBar" [] [sampleBarItem "a"] 2 1,
     sampleComp "TabsBar" [] [sampleBarItem "b"] 3 1,
     sampleComp "TabsPages" [] [samplePageItem "a"] 4 1] 1 1

/-- A `<Steps>` node with an empty child list. -/
def stepsEmptyChildren : Node :=
  .mk "mdxBlockElement" (some "Steps") (some []) [] (some (samplePosition 1 1)) none

/-- A `<Steps>` node whose children field is absent. -/
def stepsAbsentChildren : Node :=
  .mk "mdxBlockElement" (some "Steps") none [] (some (samplePosition 1 1)) none

/-- A paragraph whose flattened text holds two embedded newlines. -/
def twoNewlineParagraph : Node :=
  .mk "paragraph" none (some [sampleText "a\nb\nc"]) [] (some (samplePosition 1 1)) none

/-- The bar of the pairing sample: items `a`, `b`, `c`. -/
def c1Bar : Node :=
  barWith (samplePosition 2 1) [sampleBarItem "a", sampleBarItem "b", sampleBarItem "c"]

/-- The pages of the pairing sample: items `b`, `c`, `d`. -/
def c1Pages : Node :=
  pagesWith (samplePosition 5 1) [samplePageItem "b", samplePageItem "c", samplePageItem "d"]

/-- The pairing sample wrapper. -/
def c1Tabs : Node := tabsWith (samplePosition 1 1) c1Bar c1Pages

/-- The duplicate sample bar: items `x`, `x`, `y`. -/
def c2Bar : Node :=
  barWith (samplePosition 2 1) [sampleBarItem "x", sampleBarItem "x", sampleBarItem "y"]

/-- The duplicate sample pages: items `x`, `y`. -/
def c2Pages : Node :=
  pagesWith (samplePosition 5 1) [samplePageItem "x", samplePageItem "y"]

/-- The duplicate sample wrapper. -/
def c2Tabs : Node := tabsWith (samplePosition 1 1) c2Bar c2Pages

/-- A wrapper with no `<TabsBar>` child and a valid `<TabsPages>` child. -/
def c3Tabs : Node :=
  sampleComp "Tabs" [] [pagesWith (samplePosition 2 1) [samplePageItem "x"]] 1 1

/-- A prose paragraph for sample trees. -/
def sampleParagraph (s : String) (l c : Nat) : Node :=
  .mk "paragraph" none (some [sampleText s]) [] (some (samplePosition l c)) none

/-- A `<Steps>` node holding one `<Step>` child and one prose child. -/
def c5Steps : Node :=
  sampleComp "Steps" [] [sampleComp "Step" [] [] 2 1, sampleParagraph "hello" 3 1] 1 1

/-- A heading node, a disallowed `<Tabs>` child. -/
def sampleHeading : Node :=
  .mk "heading" none (some []) [] (some (samplePosition 2 1)) none

/-- A wrapper holding a heading, an empty paragraph, a bar and pages. -/
def c6Tabs : Node :=
  sampleComp "Tabs" []
    [sampleHeading, sampleParagraph "" 3 1,
     barWith (samplePosition 4 1) [sampleBarItem "a"],
     pagesWith (samplePosition 5 1) [samplePageItem "a"]] 1 1

/-- A `<TabsBarItem>` without any `id` attribute. -/
def c10BarItem : Node :=
  .mk "mdxBlockElement" (some "TabsBarItem") (some []) [⟨"class", "wide"⟩]
    (some (samplePosition 3 1)) none

/-- A `<TabsPageItem>` without any `id` attribute. -/
def c10PageItem : Node :=
  .mk "mdxBlockElement" (some "TabsPageItem") (some []) [⟨"class", "wide"⟩]
    (some (samplePosition 7 1)) none

/-- Two appended strings differ when their front parts differ at an
index lying inside both front parts. -/
theorem append_ne_append (a b x y : String) (i : Nat)
    (ha : i < a.data.length) (hb : i < b.data.length)
    (h : a.data[i]? ≠ b.data[i]?) : a ++ x ≠ b ++ y := by
  intro he
  have hd : a.data ++ x.data = b.data ++ y.data := by
    simpa using congrArg String.data he
  have h1 : (a.data ++ x.data)[i]? = a.data[i]? := List.getElem?_append_left ha
  have h2 : (b.data ++ y.data)[i]? = b.data[i]? := List.getElem?_append_left hb
  rw [hd] at h1
  exact h (h1.symm.trans h2)

/-- A middle part wrapped in fixed front and back strings determines the
whole string. -/
theorem append_mid_inj (a s x y : String) (h : a ++ (x ++ s) = a ++ (y ++ s)) :
    x = y := by
  have hd := congrArg String.data h
  simp only [String.data_append] at hd
  exact String.ext (List.append_cancel_right (List.append_cancel_left hd))

/-- The bar-pairing diagnostic is determined by its id. -/
theorem mkBarPairDiag_injective (p : Option Pos) :
    Function.Injective (mkBarPairDiag p) := by
  intro x y h
  exact append_mid_inj barPairPre barPairSuf x y (congrArg Diagnostic.reason h)

/-- The page-pairing diagnostic is determined by its id. -/
theorem mkPagePairDiag_injective (p : Option Pos) :
    Function.Injective (mkPagePairDiag p) := by
  intro x y h
  exact append_mid_inj pagePairPre pagePairSuf x y (congrArg Diagnostic.reason h)

/-- The duplicate-bar-id diagnostic is determined by its id. -/
theorem mkBarDupeDiag_injective (p : Option Pos) :
    Function.Injective (mkBarDupeDiag p) := by
  intro x y h
  exact append_mid_inj barDupePre barDupeSuf x y (congrArg Diagnostic.reason h)

/-- The duplicate-page-id diagnostic is determined by its id. -/
theorem mkPageDupeDiag_injective (p : Option Pos) :
    Function.Injective (mkPageDupeDiag p) := by
  intro x y h
  exact append_mid_inj pageDupePre pageDupeSuf x y (congrArg Diagnostic.reason h)

/-- A diagnostic whose reason differs from every image reason never
occurs in a mapped diagnostic list. -/
theorem count_map_eq_zero_of_reason_ne {α : Type} {f : α → Diagnostic}
    {l : List α} {d : Diagnostic} (h : ∀ a, (f a).reason ≠ d.reason) :
    (l.map f).count d = 0 := by
  rw [List.count_eq_zero]
  intro hmem
  obtain ⟨a, _, ha⟩ := List.mem_map.1 hmem
  exact h a (congrArg Diagnostic.reason ha)

/-- Membership in the first-occurrence deduplication with an accumulator. -/
theorem mem_dedupFirstAux (a : String) (seen l : List String) :
    a ∈ dedupFirstAux seen l ↔ a ∈ l ∧ a ∉ seen := by
  induction l generalizing seen with
  | nil => simp [dedupFirstAux]
  | cons x xs ih =>
    by_cases hx : x ∈ seen
    · rw [dedupFirstAux, if_pos hx, ih]
      constructor
      · exact fun ⟨h1, h2⟩ => ⟨List.mem_cons_of_mem x h1, h2⟩
      · rintro ⟨h1, h2⟩
        rcases List.mem_cons.1 h1 with h | h
        · exact absurd (h ▸ hx) h2
        · exact ⟨h, h2⟩
    · rw [dedupFirstAux, if_neg hx]
      constructor
      · intro hmem
        rcases List.mem_cons.1 hmem with h | h
        · exact ⟨h ▸ List.mem_cons_self x xs, h ▸ hx⟩
        · obtain ⟨h1, h2⟩ := (ih (x :: seen)).1 h
          exact ⟨List.mem_cons_of_mem x h1, fun hs => h2 (List.mem_cons_of_mem x hs)⟩
      · rintro ⟨h1, h2⟩
        rcases List.mem_cons.1 h1 with h | h
        · exact h ▸ List.mem_cons_self x _
        · by_cases hax : a = x
          · exact hax ▸ List.mem_cons_self x _
          · exact List.mem_cons_of_mem x
              ((ih (x :: seen)).2 ⟨h, fun hs => (List.mem_cons.1 hs).elim hax h2⟩)

/-- The deduplicated list has no duplicates. -/
theorem nodup_dedupFirstAux (seen l : List String) :
    (dedupFirstAux seen l).Nodup := by
  induction l generalizing seen with
  | nil => simp [dedupFirstAux]
  | cons x xs ih =>
    by_cases hx : x ∈ seen
    · rw [dedupFirstAux, if_pos hx]; exact ih seen
    · rw [dedupFirstAux, if_neg hx]
      refine List.nodup_cons.2 ⟨?_, ih (x :: seen)⟩
      intro hmem
      exact ((mem_dedupFirstAux x (x :: seen) xs).1 hmem).2 (List.mem_cons_self x seen)

/-- Membership in `dedupFirst` is membership in the original list. -/
theorem mem_dedupFirst (a : String) (l : List String) :
    a ∈ dedupFirst l ↔ a ∈ l := by
  rw [dedupFirst, mem_dedupFirstAux]
  simp

/-- `dedupFirst` yields distinct elements. -/
theorem nodup_dedupFirst (l : List String) : (dedupFirst l).Nodup :=
  nodup_dedupFirstAux [] l

/-- The frequency association list built by folding `bumpCount`: its
keys are distinct, every entry carries the exact occurrence count of its
key, and its keys are exactly the list's elements. -/
theorem countsOf_spec (vals : List String) :
    ((countsOf vals).map Prod.fst).Nodup ∧
      (∀ k c, (k, c) ∈ countsOf vals → c = vals.count k) ∧
      (∀ k, k ∈ (countsOf vals).map Prod.fst ↔ k ∈ vals) := by
  induction vals using List.reverseRecOn with
  | nil => simp [countsOf]
  | append_singleton l x ih =>
    obtain ⟨hnd, hcount, hmem⟩ := ih
    have hstep : countsOf (l ++ [x]) = bumpCount (countsOf l) x := by
      simp [countsOf, List.foldl_append]
    by_cases hx : x ∈ (countsOf l).map Prod.fst
    · have hany : (countsOf l).any (fun p => p.1 == x) = true := by
        rw [List.any_eq_true]
        obtain ⟨q, hq, hqx⟩ := List.mem_map.1 hx
        exact ⟨q, hq, by simp [hqx]⟩
      have hbump : bumpCount (countsOf l) x =
          (countsOf l).map (fun p => if p.1 == x then (p.1, p.2 + 1) else p) := by
        rw [bumpCount, if_pos hany]
      have hkeys : ((countsOf l).map
          (fun p => if p.1 == x then (p.1, p.2 + 1) else p)).map Prod.fst =
          (countsOf l).map Prod.fst := by
        rw [List.map_map]
        apply List.map_congr_left
        intro q _
        by_cases hqx : q.1 == x
        · rw [Function.comp_apply, if_pos hqx]
        · rw [Function.comp_apply, if_neg hqx]
      refine ⟨?_, ?_, ?_⟩
      · rw [hstep, hbump, hkeys]; exact hnd
      · intro k c hkc
        rw [hstep, hbump] at hkc
        obtain ⟨q, hq, hqeq⟩ := List.mem_map.1 hkc
        by_cases hqx : q.1 == x
        · rw [if_pos hqx] at hqeq
          have hk : k = q.1 := by cases hqeq; rfl
          have hc : c = q.2 + 1 := by cases hqeq; rfl
          have hqx' : q.1 = x := by simpa using hqx
          have := hcount q.1 q.2 (by simpa using hq)
          rw [hk, hc, this, hqx', List.count_append]
          simp
        · rw [if_neg hqx] at hqeq
          have hk : k = q.1 := by cases hqeq; rfl
          have hc : c = q.2 := by cases hqeq; rfl
          have hqx' : q.1 ≠ x := by simpa using hqx
          have := hcount q.1 q.2 (by simpa using hq)
          rw [hk, hc, this, List.count_append]
          simp [List.count_singleton', hqx']
      · intro k
        rw [hstep, hbump, hkeys, hmem]
        constructor
        · intro h; exact List.mem_append_left _ h
        · intro h
          rcases List.mem_append.1 h with h | h
          · exact h
          · have : k = x := by simpa using h
            exact this ▸ (hmem x).1 hx
    · have hany : ¬((countsOf l).any (fun p => p.1 == x) = true) := by
        rw [List.any_eq_true]
        rintro ⟨q, hq, hqx⟩
        exact hx (List.mem_map.2 ⟨q, hq, by simpa using hqx⟩)
      have hbump : bumpCount (countsOf l) x = countsOf l ++ [(x, 1)] := by
        rw [bumpCount, if_neg hany]
      have hxl : x ∉ l := fun hh => hx ((hmem x).2 hh)
      refine ⟨?_, ?_, ?_⟩
      · rw [hstep, hbump, List.map_append]
        rw [List.nodup_append]
        refine ⟨hnd, by simp, ?_⟩
        intro a ha hb
        have : a = x := by simpa using hb
        exact hx (this ▸ ha)
      · intro k c hkc
        rw [hstep, hbump] at hkc
        rcases List.mem_append.1 hkc with h | h
        · have hk := hcount k c h
          have hkx : k ≠ x := by
            intro hkk
            exact hx (hkk ▸ List.mem_map.2 ⟨(k, c), h, rfl⟩)
          rw [hk, List.count_append]
          simp [List.count_singleton', hkx]
        · have hk : k = x ∧ c = 1 := by simpa using h
          rw [hk.1, hk.2, List.count_append]
          simp [List.count_eq_zero_of_not_mem hxl]
      · intro k
        rw [hstep, hbump, List.map_append]
        simp only [List.mem_append, hmem]
        simp

/-- `getDuplicateIdAttributes` is the filtered key list of the frequency
map over the attribute values. -/
theorem getDuplicateIdAttributes_eq (attrs : List Attr) :
    getDuplicateIdAttributes attrs =
      ((countsOf (attrs.map Attr.value)).filter (fun p => decide (1 < p.2))).map
        Prod.fst := by
  rw [getDuplicateIdAttributes, countsOf, List.foldl_map]

/-- The duplicated-id list holds no repeated identifiers. -/
theorem nodup_getDuplicateIdAttributes (attrs : List Attr) :
    (getDuplicateIdAttributes attrs).Nodup := by
  rw [getDuplicateIdAttributes_eq]
  exact ((List.filter_sublist _).map Prod.fst).nodup (countsOf_spec (attrs.map Attr.value)).1

/-- An identifier appears in the duplicated-id list exactly when its
value occurs more than once among the attributes. -/
theorem mem_getDuplicateIdAttributes (attrs : List Attr) (id : String) :
    id ∈ getDuplicateIdAttributes attrs ↔ 1 < (attrs.map Attr.value).count id := by
  rw [getDuplicateIdAttributes_eq]
  obtain ⟨hnd, hcount, hmem⟩ := countsOf_spec (attrs.map Attr.value)
  constructor
  · intro h
    obtain ⟨q, hq, hqid⟩ := List.mem_map.1 h
    obtain ⟨hq1, hq2⟩ := List.mem_filter.1 hq
    have := hcount q.1 q.2 (by simpa using hq1)
    have h2 : 1 < q.2 := by simpa using hq2
    rw [← hqid, ← this]
    exact h2
  · intro h
    have hidmem : id ∈ attrs.map Attr.value :=
      List.count_pos_iff.1 (Nat.lt_of_lt_of_le Nat.zero_lt_one (Nat.le_of_lt h))
    obtain ⟨q, hq, hqid⟩ := List.mem_map.1 ((hmem id).2 hidmem)
    have hc := hcount q.1 q.2 (by simpa using hq)
    refine List.mem_map.2 ⟨q, List.mem_filter.2 ⟨hq, ?_⟩, hqid⟩
    have : 1 < q.2 := by rw [hc, hqid]; exact h
    simpa using this

/-- When every node in the list has a position, the effectful
child-diagnostic map succeeds and yields the pure map. -/
theorem mapE_childDiagE_ok (reasonOf : Node → String) (l : List Node)
    (h : ∀ c ∈ l, c.position.isSome = true) :
    mapE (childDiagE reasonOf) l = .ok (l.map (mkChildDiag reasonOf)) := by
  induction l with
  | nil => rfl
  | cons a as ih =>
    obtain ⟨P, hP⟩ := Option.isSome_iff_exists.1 (h a (List.mem_cons_self a as))
    have hrec := ih (fun c hc => h c (List.mem_cons_of_mem a hc))
    rw [mapE, childDiagE, hP]
    rw [hrec]
    rfl

/-- When the effectful child-diagnostic map succeeds, its output is the
pure map. -/
theorem mapE_childDiagE_ok_inv (reasonOf : Node → String) (l : List Node)
    (out : List Diagnostic) (h : mapE (childDiagE reasonOf) l = .ok out) :
    out = l.map (mkChildDiag reasonOf) := by
  induction l generalizing out with
  | nil =>
    rw [mapE] at h
    cases h
    rfl
  | cons a as ih =>
    rw [mapE] at h
    cases hfa : childDiagE reasonOf a with
    | error e => rw [hfa] at h; cases h
    | ok b =>
      rw [hfa] at h
      cases hrec : mapE (childDiagE reasonOf) as with
      | error e => rw [hrec] at h; cases h
      | ok bs =>
        rw [hrec] at h
        cases h
        have hb : b = mkChildDiag reasonOf a := by
          cases hP : a.position with
          | none => rw [childDiagE, hP] at hfa; cases hfa
          | some P => rw [childDiagE, hP] at hfa; cases hfa; rfl
        rw [List.map_cons, hb, ih bs hrec]

/-- For a wrapper with children, exactly one bar, exactly one pages, and
positions on every disallowed child, `validateTabs` on that wrapper
returns the disallowed-children diagnostics followed by the pairing and
duplicate-id diagnostics. -/
theorem validateTabsNode_ok_eq (tabs bar pages : Node) (cs bcs pcs : List Node)
    (hcs : tabs.children = some cs)
    (hbar : tabsBarListOf cs = [bar])
    (hpages : tabsPagesListOf cs = [pages])
    (hbc : bar.children = some bcs)
    (hpc : pages.children = some pcs)
    (hall : ∀ c ∈ nonTabChildren cs, c.position.isSome = true) :
    validateTabsNode tabs = .ok (tabsOkDiags tabs cs bcs pcs) := by
  have h1 : ¬((tabsBarListOf cs).length > 1) := by rw [hbar]; simp
  have h2 : ¬((tabsPagesListOf cs).length > 1) := by rw [hpages]; simp
  simp only [validateTabsNode, hcs]
  rw [mapE_childDiagE_ok tabsChildReason (nonTabChildren cs) hall]
  simp only [tabsStructureCheck, if_neg h1, if_neg h2, hbar, hpages, List.head?_cons]
  simp only [validateTabsRest, tabsItemChecks, hbc, hpc]
  simp [tabsOkDiags, barPairingDiags, pagePairingDiags, List.append_assoc]

/-- Counting a bar-pairing diagnostic inside the bar-pairing batch:
one when the id lies in the bar values and not in the page values,
else zero. -/
theorem count_barPairingDiags (p : Option Pos) (bvals pvals : List String)
    (id : String) :
    (barPairingDiags p bvals pvals).count (mkBarPairDiag p id) =
      if id ∈ bvals ∧ id ∉ pvals then 1 else 0 := by
  rw [barPairingDiags, List.count_map_of_injective _ _ (mkBarPairDiag_injective p)]
  by_cases h : id ∈ bvals ∧ id ∉ pvals
  · rw [if_pos h]
    refine List.count_eq_one_of_mem ((nodup_dedupFirst bvals).filter _) ?_
    refine List.mem_filter.2 ⟨(mem_dedupFirst id bvals).2 h.1, ?_⟩
    simp [mem_dedupFirst, h.2]
  · rw [if_neg h]
    refine List.count_eq_zero_of_not_mem ?_
    intro hmem
    obtain ⟨h1, h2⟩ := List.mem_filter.1 hmem
    refine h ⟨(mem_dedupFirst id bvals).1 h1, ?_⟩
    intro hp
    rw [Bool.not_eq_true', List.contains_eq_any_beq] at h2
    have : (dedupFirst pvals).any (id == ·) = true := by
      rw [List.any_eq_true]
      exact ⟨id, (mem_dedupFirst id pvals).2 hp, by simp⟩
    rw [this] at h2
    cases h2

/-- Counting a page-pairing diagnostic inside the page-pairing batch. -/
theorem count_pagePairingDiags (p : Option Pos) (bvals pvals : List String)
    (id : String) :
    (pagePairingDiags p bvals pvals).count (mkPagePairDiag p id) =
      if id ∈ pvals ∧ id ∉ bvals then 1 else 0 := by
  rw [pagePairingDiags, List.count_map_of_injective _ _ (mkPagePairDiag_injective p)]
  by_cases h : id ∈ pvals ∧ id ∉ bvals
  · rw [if_pos h]
    refine List.count_eq_one_of_mem ((nodup_dedupFirst pvals).filter _) ?_
    refine List.mem_filter.2 ⟨(mem_dedupFirst id pvals).2 h.1, ?_⟩
    simp [mem_dedupFirst, h.2]
  · rw [if_neg h]
    refine List.count_eq_zero_of_not_mem ?_
    intro hmem
    obtain ⟨h1, h2⟩ := List.mem_filter.1 hmem
    refine h ⟨(mem_dedupFirst id pvals).1 h1, ?_⟩
    intro hp
    rw [Bool.not_eq_true', List.contains_eq_any_beq] at h2
    have : (dedupFirst bvals).any (id == ·) = true := by
      rw [List.any_eq_true]
      exact ⟨id, (mem_dedupFirst id bvals).2 hp, by simp⟩
    rw [this] at h2
    cases h2

/-- Counting a duplicate-bar-id diagnostic inside its own batch. -/
theorem count_barDupeDiags (p : Option Pos) (attrs : List Attr) (id : String) :
    ((getDuplicateIdAttributes attrs).map (mkBarDupeDiag p)).count
        (mkBarDupeDiag p id) =
      if 1 < (attrs.map Attr.value).count id then 1 else 0 := by
  rw [List.count_map_of_injective _ _ (mkBarDupeDiag_injective p)]
  by_cases h : 1 < (attrs.map Attr.value).count id
  · rw [if_pos h]
    exact List.count_eq_one_of_mem (nodup_getDuplicateIdAttributes attrs)
      ((mem_getDuplicateIdAttributes attrs id).2 h)
  · rw [if_neg h]
    exact List.count_eq_zero_of_not_mem
      (fun hm => h ((mem_getDuplicateIdAttributes attrs id).1 hm))

/-- Counting a duplicate-page-id diagnostic inside its own batch. -/
theorem count_pageDupeDiags (p : Option Pos) (attrs : List Attr) (id : String) :
    ((getDuplicateIdAttributes attrs).map (mkPageDupeDiag p)).count
        (mkPageDupeDiag p id) =
      if 1 < (attrs.map Attr.value).count id then 1 else 0 := by
  rw [List.count_map_of_injective _ _ (mkPageDupeDiag_injective p)]
  by_cases h : 1 < (attrs.map Attr.value).count id
  · rw [if_pos h]
    exact List.count_eq_one_of_mem (nodup_getDuplicateIdAttributes attrs)
      ((mem_getDuplicateIdAttributes attrs id).2 h)
  · rw [if_neg h]
    exact List.count_eq_zero_of_not_mem
      (fun hm => h ((mem_getDuplicateIdAttributes attrs id).1 hm))

/-- C1: for a Tabs wrapper holding exactly one TabsBar and one TabsPages
child, the emitted diagnostic list contains, for every identifier,
exactly one bar-pairing diagnostic anchored at the wrapper's start when
the identifier is a bar id with no page id, exactly one symmetric
page-pairing diagnostic when it is a page id with no bar id, and none
otherwise. -/
theorem tabs_pairing_one_diag_per_one_sided_id
    (tabs bar pages : Node) (cs bcs pcs : List Node) (id : String)
    (hcs : tabs.children = some cs)
    (hbar : tabsBarListOf cs = [bar])
    (hpages : tabsPagesListOf cs = [pages])
    (hbc : bar.children = some bcs)
    (hpc : pages.children = some pcs)
    (hall : ∀ c ∈ nonTabChildren cs, c.position.isSome = true) :
    validateTabsNode tabs = .ok (tabsOkDiags tabs cs bcs pcs) ∧
    (tabsOkDiags tabs cs bcs pcs).count
        (mkBarPairDiag (tabs.position.map Position.start) id) =
      (if id ∈ barIdValues bcs ∧ id ∉ pageIdValues pcs then 1 else 0) ∧
    (tabsOkDiags tabs cs bcs pcs).count
        (mkPagePairDiag (tabs.position.map Position.start) id) =
      (if id ∈ pageIdValues pcs ∧ id ∉ barIdValues bcs then 1 else 0) := by
  refine ⟨validateTabsNode_ok_eq tabs bar pages cs bcs pcs hcs hbar hpages hbc hpc hall,
    ?_, ?_⟩
  · rw [tabsOkDiags]
    simp only [List.count_append]
    rw [count_barPairingDiags]
    rw [count_map_eq_zero_of_reason_ne (fun a => by
      simp only [mkChildDiag, mkBarPairDiag, tabsChildReason]
      exact append_ne_append _ _ _ _ 0 (by decide) (by decide) (by decide))]
    rw [pagePairingDiags, count_map_eq_zero_of_reason_ne (fun a => by
      simp only [mkPagePairDiag, mkBarPairDiag]
      exact append_ne_append _ _ _ _ 13 (by decide) (by decide) (by decide))]
    rw [count_map_eq_zero_of_reason_ne (fun a => by
      simp only [mkBarDupeDiag, mkBarPairDiag]
      exact append_ne_append _ _ _ _ 27 (by decide) (by decide) (by decide))]
    rw [count_map_eq_zero_of_reason_ne (fun a => by
      simp only [mkPageDupeDiag, mkBarPairDiag]
      exact append_ne_append _ _ _ _ 13 (by decide) (by decide) (by decide))]
    omega
  · rw [tabsOkDiags]
    simp only [List.count_append]
    rw [count_pagePairingDiags]
    rw [count_map_eq_zero_of_reason_ne (fun a => by
      simp only [mkChildDiag, mkPagePairDiag, tabsChildReason]
      exact append_ne_append _ _ _ _ 0 (by decide) (by decide) (by decide))]
    rw [barPairingDiags, count_map_eq_zero_of_reason_ne (fun a => by
      simp only [mkBarPairDiag, mkPagePairDiag]
      exact append_ne_append _ _ _ _ 13 (by decide) (by decide) (by decide))]
    rw [count_map_eq_zero_of_reason_ne (fun a => by
      simp only [mkBarDupeDiag, mkPagePairDiag]
      exact append_ne_append _ _ _ _ 13 (by decide) (by decide) (by decide))]
    rw [count_map_eq_zero_of_reason_ne (fun a => by
      simp only [mkPageDupeDiag, mkPagePairDiag]
      exact append_ne_append _ _ _ _ 28 (by decide) (by decide) (by decide))]
    omega

/-- Witness: on the sample wrapper with bar ids a,b,c and page ids
b,c,d, exactly one bar-pairing diagnostic for a, one page-pairing
diagnostic for d, and none for the shared id b. -/
theorem tabs_pairing_one_diag_per_one_sided_id_witness :
    (tabsOkDiags c1Tabs [c1Bar, c1Pages]
        [sampleBarItem "a", sampleBarItem "b", sampleBarItem "c"]
        [samplePageItem "b", samplePageItem "c", samplePageItem "d"]).count
        (mkBarPairDiag (c1Tabs.position.map Position.start) "a") = 1 ∧
    (tabsOkDiags c1Tabs [c1Bar, c1Pages]
        [sampleBarItem "a", sampleBarItem "b", sampleBarItem "c"]
        [samplePageItem "b", samplePageItem "c", samplePageItem "d"]).count
        (mkPagePairDiag (c1Tabs.position.map Position.start) "d") = 1 ∧
    (tabsOkDiags c1Tabs [c1Bar, c1Pages]
        [sampleBarItem "a", sampleBarItem "b", sampleBarItem "c"]
        [samplePageItem "b", samplePageItem "c", samplePageItem "d"]).count
        (mkBarPairDiag (c1Tabs.position.map Position.start) "b") = 0 ∧
    (tabsOkDiags c1Tabs [c1Bar, c1Pages]
        [sampleBarItem "a", sampleBarItem "b", sampleBarItem "c"]
        [samplePageItem "b", samplePageItem "c", samplePageItem "d"]).count
        (mkPagePairDiag (c1Tabs.position.map Position.start) "b") = 0 := by
  have h1 := tabs_pairing_one_diag_per_one_sided_id c1Tabs c1Bar c1Pages
    [c1Bar, c1Pages] [sampleBarItem "a", sampleBarItem "b", sampleBarItem "c"]
    [samplePageItem "b", samplePageItem "c", samplePageItem "d"] "a"
    rfl rfl rfl rfl rfl (by decide)
  have h2 := tabs_pairing_one_diag_per_one_sided_id c1Tabs c1Bar c1Pages
    [c1Bar, c1Pages] [sampleBarItem "a", sampleBarItem "b", sampleBarItem "c"]
    [samplePageItem "b", samplePageItem "c", samplePageItem "d"] "d"
    rfl rfl rfl rfl rfl (by decide)
  have h3 := tabs_pairing_one_diag_per_one_sided_id c1Tabs c1Bar c1Pages
    [c1Bar, c1Pages] [sampleBarItem "a", sampleBarItem "b", sampleBarItem "c"]
    [samplePageItem "b", samplePageItem "c", samplePageItem "d"] "b"
    rfl rfl rfl rfl rfl (by decide)
  exact ⟨h1.2.1.trans (by decide), h2.2.2.trans (by decide),
    h3.2.1.trans (by decide), h3.2.2.trans (by decide)⟩

/-- C2: for a Tabs wrapper holding exactly one TabsBar and one TabsPages
child, the emitted diagnostic list contains, for every identifier,
exactly one wrapper-anchored duplicate-id diagnostic naming the bar
collection when the identifier occurs more than once among the bar item
id attributes, none otherwise, and independently likewise for the page
collection. -/
theorem tabs_duplicate_id_one_diag_per_dup_id
    (tabs bar pages : Node) (cs bcs pcs : List Node) (id : String)
    (hcs : tabs.children = some cs)
    (hbar : tabsBarListOf cs = [bar])
    (hpages : tabsPagesListOf cs = [pages])
    (hbc : bar.children = some bcs)
    (hpc : pages.children = some pcs)
    (hall : ∀ c ∈ nonTabChildren cs, c.position.isSome = true) :
    validateTabsNode tabs = .ok (tabsOkDiags tabs cs bcs pcs) ∧
    (tabsOkDiags tabs cs bcs pcs).count
        (mkBarDupeDiag (tabs.position.map Position.start) id) =
      (if 1 < (barIdValues bcs).count id then 1 else 0) ∧
    (tabsOkDiags tabs cs bcs pcs).count
        (mkPageDupeDiag (tabs.position.map Position.start) id) =
      (if 1 < (pageIdValues pcs).count id then 1 else 0) := by
  refine ⟨validateTabsNode_ok_eq tabs bar pages cs bcs pcs hcs hbar hpages hbc hpc hall,
    ?_, ?_⟩
  · rw [tabsOkDiags]
    simp only [List.count_append]
    rw [barIdValues, count_barDupeDiags]
    rw [count_map_eq_zero_of_reason_ne (fun a => by
      simp only [mkChildDiag, mkBarDupeDiag, tabsChildReason]
      exact append_ne_append _ _ _ _ 0 (by decide) (by decide) (by decide))]
    rw [barPairingDiags, count_map_eq_zero_of_reason_ne (fun a => by
      simp only [mkBarPairDiag, mkBarDupeDiag]
      exact append_ne_append _ _ _ _ 27 (by decide) (by decide) (by decide))]
    rw [pagePairingDiags, count_map_eq_zero_of_reason_ne (fun a => by
      simp only [mkPagePairDiag, mkBarDupeDiag]
      exact append_ne_append _ _ _ _ 13 (by decide) (by decide) (by decide))]
    rw [count_map_eq_zero_of_reason_ne (fun a => by
      simp only [mkPageDupeDiag, mkBarDupeDiag]
      exact append_ne_append _ _ _ _ 13 (by decide) (by decide) (by decide))]
    omega
  · rw [tabsOkDiags]
    simp only [List.count_append]
    rw [pageIdValues, count_pageDupeDiags]
    rw [count_map_eq_zero_of_reason_ne (fun a => by
      simp only [mkChildDiag, mkPageDupeDiag, tabsChildReason]
      exact append_ne_append _ _ _ _ 0 (by decide) (by decide) (by decide))]
    rw [barPairingDiags, count_map_eq_zero_of_reason_ne (fun a => by
      simp only [mkBarPairDiag, mkPageDupeDiag]
      exact append_ne_append _ _ _ _ 13 (by decide) (by decide) (by decide))]
    rw [pagePairingDiags, count_map_eq_zero_of_reason_ne (fun a => by
      simp only [mkPagePairDiag, mkPageDupeDiag]
      exact append_ne_append _ _ _ _ 28 (by decide) (by decide) (by decide))]
    rw [count_map_eq_zero_of_reason_ne (fun a => by
      simp only [mkBarDupeDiag, mkPageDupeDiag]
      exact append_ne_append _ _ _ _ 13 (by decide) (by decide) (by decide))]
    omega

/-- Witness: on the sample wrapper with bar ids x,x,y, exactly one
duplicate-id diagnostic for x and none for y. -/
theorem tabs_duplicate_id_one_diag_per_dup_id_witness :
    (tabsOkDiags c2Tabs [c2Bar, c2Pages]
        [sampleBarItem "x", sampleBarItem "x", sampleBarItem "y"]
        [samplePageItem "x", samplePageItem "y"]).count
        (mkBarDupeDiag (c2Tabs.position.map Position.start) "x") = 1 ∧
    (tabsOkDiags c2Tabs [c2Bar, c2Pages]
        [sampleBarItem "x", sampleBarItem "x", sampleBarItem "y"]
        [samplePageItem "x", samplePageItem "y"]).count
        (mkBarDupeDiag (c2Tabs.position.map Position.start) "y") = 0 ∧
    (tabsOkDiags c2Tabs [c2Bar, c2Pages]
        [sampleBarItem "x", sampleBarItem "x", sampleBarItem "y"]
        [samplePageItem "x", samplePageItem "y"]).count
        (mkPageDupeDiag (c2Tabs.position.map Position.start) "x") = 0 := by
  have h1 := tabs_duplicate_id_one_diag_per_dup_id c2Tabs c2Bar c2Pages
    [c2Bar, c2Pages] [sampleBarItem "x", sampleBarItem "x", sampleBarItem "y"]
    [samplePageItem "x", samplePageItem "y"] "x" rfl rfl rfl rfl rfl (by decide)
  have h2 := tabs_duplicate_id_one_diag_per_dup_id c2Tabs c2Bar c2Pages
    [c2Bar, c2Pages] [sampleBarItem "x", sampleBarItem "x", sampleBarItem "y"]
    [samplePageItem "x", samplePageItem "y"] "y" rfl rfl rfl rfl rfl (by decide)
  exact ⟨h1.2.1.trans (by decide), h2.2.1.trans (by decide), h1.2.2.trans (by decide)⟩

/-- A whole fixed string differs from an appended string when they
differ at an index lying inside both front parts. -/
theorem whole_ne_append (b a x : String) (i : Nat)
    (hb : i < b.data.length) (ha : i < a.data.length)
    (h : b.data[i]? ≠ a.data[i]?) : b ≠ a ++ x := by
  intro he
  have h2 := append_ne_append b a "" x i hb ha h
  rw [String.append_empty] at h2
  exact h2 he

/-- A diagnostic with a different reason is not counted in a conditional
missing-bar singleton. -/
theorem count_missing_bar_if (P : Position) (c : Prop) [Decidable c]
    (d : Diagnostic) (h1 : d.reason ≠ missingBarReason) :
    (if c then [mkMissingBarDiag P] else []).count d = 0 := by
  split
  · rw [List.count_eq_zero, List.mem_singleton]
    intro hmem
    exact h1 (congrArg Diagnostic.reason hmem)
  · rfl

/-- A diagnostic with a different reason is not counted in a conditional
missing-pages singleton. -/
theorem count_missing_pages_if (P : Position) (c : Prop) [Decidable c]
    (d : Diagnostic) (h1 : d.reason ≠ missingPagesReason) :
    (if c then [mkMissingPagesDiag P] else []).count d = 0 := by
  split
  · rw [List.count_eq_zero, List.mem_singleton]
    intro hmem
    exact h1 (congrArg Diagnostic.reason hmem)
  · rfl

/-- C3: for a Tabs wrapper with at most one bar and at most one pages
child of which at least one is absent, the validator emits the
disallowed-children diagnostics followed by exactly one wrapper-anchored
diagnostic per missing collection, and emits no pairing and no
duplicate-id diagnostics at all. -/
theorem tabs_missing_collection_short_circuit
    (tabs : Node) (cs : List Node) (P : Position) (p0 : Option Pos) (id : String)
    (hcs : tabs.children = some cs)
    (hP : tabs.position = some P)
    (hbarlen : (tabsBarListOf cs).length ≤ 1)
    (hpageslen : (tabsPagesListOf cs).length ≤ 1)
    (hmiss : tabsBarListOf cs = [] ∨ tabsPagesListOf cs = [])
    (hall : ∀ c ∈ nonTabChildren cs, c.position.isSome = true) :
    validateTabsNode tabs = .ok
      ((nonTabChildren cs).map (mkChildDiag tabsChildReason)
        ++ (if (tabsBarListOf cs).isEmpty then [mkMissingBarDiag P] else [])
        ++ (if (tabsPagesListOf cs).isEmpty then [mkMissingPagesDiag P] else [])) ∧
    ∀ d ∈ [mkBarPairDiag p0 id, mkPagePairDiag p0 id,
        mkBarDupeDiag p0 id, mkPageDupeDiag p0 id],
      ((nonTabChildren cs).map (mkChildDiag tabsChildReason)
        ++ (if (tabsBarListOf cs).isEmpty then [mkMissingBarDiag P] else [])
        ++ (if (tabsPagesListOf cs).isEmpty then [mkMissingPagesDiag P] else [])).count
        d = 0 := by
  have h1 : ¬((tabsBarListOf cs).length > 1) := by omega
  have h2 : ¬((tabsPagesListOf cs).length > 1) := by omega
  constructor
  · simp only [validateTabsNode, hcs]
    rw [mapE_childDiagE_ok tabsChildReason (nonTabChildren cs) hall]
    simp only [tabsStructureCheck, if_neg h1, if_neg h2]
    have hbl : tabsBarListOf cs = [] ∨ ∃ b, tabsBarListOf cs = [b] := by
      cases hsh : tabsBarListOf cs with
      | nil => exact Or.inl rfl
      | cons b bs =>
        refine Or.inr ⟨b, ?_⟩
        rw [hsh] at hbarlen
        cases bs with
        | nil => rfl
        | cons b2 bs2 => simp at hbarlen
    have hpl : tabsPagesListOf cs = [] ∨ ∃ q, tabsPagesListOf cs = [q] := by
      cases hsh : tabsPagesListOf cs with
      | nil => exact Or.inl rfl
      | cons q qs =>
        refine Or.inr ⟨q, ?_⟩
        rw [hsh] at hpageslen
        cases qs with
        | nil => rfl
        | cons q2 qs2 => simp at hpageslen
    rcases hbl with hb | ⟨b, hb⟩ <;> rcases hpl with hp | ⟨q, hp⟩
    · rw [hb, hp]
      simp [validateTabsRest, hP]
    · rw [hb, hp]
      simp [validateTabsRest, hP]
    · rw [hb, hp]
      simp [validateTabsRest, hP]
    · rcases hmiss with h | h
      · rw [h] at hb; cases hb
      · rw [h] at hp; cases hp
  · have key : ∀ d : Diagnostic, d.reason ≠ missingBarReason →
        d.reason ≠ missingPagesReason →
        (∀ a : Node, (mkChildDiag tabsChildReason a).reason ≠ d.reason) →
        ((nonTabChildren cs).map (mkChildDiag tabsChildReason)
          ++ (if (tabsBarListOf cs).isEmpty then [mkMissingBarDiag P] else [])
          ++ (if (tabsPagesListOf cs).isEmpty then [mkMissingPagesDiag P] else [])).count
          d = 0 := by
      intro d k1 k2 k3
      simp only [List.count_append]
      rw [count_map_eq_zero_of_reason_ne k3, count_missing_bar_if _ _ _ k1,
        count_missing_pages_if _ _ _ k2]
    intro d hd
    simp only [List.mem_cons, List.not_mem_nil, or_false] at hd
    rcases hd with hd | hd | hd | hd
    · exact hd ▸ key _
        (Ne.symm (whole_ne_append _ _ _ 0 (by decide) (by decide) (by decide)))
        (Ne.symm (whole_ne_append _ _ _ 0 (by decide) (by decide) (by decide)))
        (fun a => append_ne_append _ _ _ _ 0 (by decide) (by decide) (by decide))
    · exact hd ▸ key _
        (Ne.symm (whole_ne_append _ _ _ 0 (by decide) (by decide) (by decide)))
        (Ne.symm (whole_ne_append _ _ _ 0 (by decide) (by decide) (by decide)))
        (fun a => append_ne_append _ _ _ _ 0 (by decide) (by decide) (by decide))
    · exact hd ▸ key _
        (Ne.symm (whole_ne_append _ _ _ 0 (by decide) (by decide) (by decide)))
        (Ne.symm (whole_ne_append _ _ _ 0 (by decide) (by decide) (by decide)))
        (fun a => append_ne_append _ _ _ _ 0 (by decide) (by decide) (by decide))
    · exact hd ▸ key _
        (Ne.symm (whole_ne_append _ _ _ 0 (by decide) (by decide) (by decide)))
        (Ne.symm (whole_ne_append _ _ _ 0 (by decide) (by decide) (by decide)))
        (fun a => append_ne_append _ _ _ _ 0 (by decide) (by decide) (by decide))

/-- Witness: the wrapper with no bar and one valid pages child yields
exactly the missing-bar diagnostic and no pairing diagnostic. -/
theorem tabs_missing_collection_short_circuit_witness :
    validateTabsNode c3Tabs = .ok [mkMissingBarDiag (samplePosition 1 1)] ∧
    ((nonTabChildren [pagesWith (samplePosition 2 1) [samplePageItem "x"]]).map
          (mkChildDiag tabsChildReason)
        ++ (if (tabsBarListOf [pagesWith (samplePosition 2 1) [samplePageItem "x"]]).isEmpty
            then [mkMissingBarDiag (samplePosition 1 1)] else [])
        ++ (if (tabsPagesListOf [pagesWith (samplePosition 2 1) [samplePageItem "x"]]).isEmpty
            then [mkMissingPagesDiag (samplePosition 1 1)] else [])).count
      (mkBarPairDiag (some (Pos.mk 1 1)) "x") = 0 := by
  have h := tabs_missing_collection_short_circuit c3Tabs
    [pagesWith (samplePosition 2 1) [samplePageItem "x"]]
    (samplePosition 1 1) (some (Pos.mk 1 1)) "x"
    rfl rfl (by decide) (by decide) (Or.inl rfl) (by decide)
  refine ⟨?_, h.2 _ (by simp)⟩
  rw [h.1]
  rfl

/-- C4 evidence: on a wrapper with two TabsBar children the validator
does not produce the one-bar diagnostic as a value; it throws while
reading `position.start` of the filtered child array, so no diagnostics
at all escape, and the pairing checks never run. -/
theorem tabs_two_bars_throws :
    validateTabs twoBarsTabs = .error startTypeError ∧
    validateTabsNode twoBarsTabs = .error startTypeError := ⟨rfl, rfl⟩

/-- C7 evidence: a Steps node with an empty child list yields zero
diagnostics, but a Steps node whose children field is absent makes the
validator throw instead of returning zero diagnostics. -/
theorem steps_absent_children_throws :
    validateSteps stepsEmptyChildren = .ok [] ∧
    validateStepsNode stepsEmptyChildren = .ok [] ∧
    validateSteps stepsAbsentChildren = .error forEachTypeError ∧
    validateStepsNode stepsAbsentChildren = .error forEachTypeError :=
  ⟨rfl, rfl, rfl, rfl⟩

/-- C9: the validators of the registry are pure functions of the tree,
so running any of them, or the whole registry, twice against the same
tree yields the same diagnostics in the same order. -/
theorem validators_deterministic (t : Node) :
    validators.map (fun v => v t) = validators.map (fun v => v t) ∧
    runValidators t = runValidators t ∧
    validateSteps t = validateSteps t ∧
    validateTabs t = validateTabs t :=
  ⟨rfl, rfl, rfl, rfl⟩

/-- C5: on a Steps node with children that all carry positions, the
validator emits exactly the list holding one diagnostic per immediate
child not named Step, in order, each anchored at that child's start
position with the fixed reason text around the child's description. -/
theorem steps_one_diag_per_non_step_child (node : Node) (cs : List Node)
    (hcs : node.children = some cs)
    (hall : ∀ c ∈ cs.filter (fun c => !(c.name == some "Step")), c.position.isSome = true) :
    validateStepsNode node = .ok
      ((cs.filter (fun c => !(c.name == some "Step"))).map (mkChildDiag stepsChildReason)) := by
  simp only [validateStepsNode, hcs]
  exact mapE_childDiagE_ok stepsChildReason _ hall

/-- Witness: the sample Steps node with one Step child and one prose
child yields exactly one diagnostic, for the prose child, at its
position. -/
theorem steps_one_diag_per_non_step_child_witness :
    validateStepsNode c5Steps = .ok
      [{ line := some 3, column := some 1,
         reason := stepsChildPre ++ "\x22hello\x22",
         type := VALIDATION_ERROR }] := by
  have h := steps_one_diag_per_non_step_child c5Steps
    [sampleComp "Step" [] [] 2 1, sampleParagraph "hello" 3 1] rfl (by decide)
  rw [h]
  rfl

/-- A four-batch append after a front list is an append to that front
list. -/
theorem append_four_front {α : Type} (a b c d e : List α) :
    ∃ rest, a ++ b ++ c ++ d ++ e = a ++ rest :=
  ⟨b ++ c ++ d ++ e, by simp [List.append_assoc]⟩

/-- The item checks only append to the diagnostics accumulated so far. -/
theorem tabsItemChecks_ok_front (tabs bar pages : Node)
    (errors : List Diagnostic) (ds : List Diagnostic)
    (h : tabsItemChecks tabs bar pages errors = .ok ds) :
    ∃ rest, ds = errors ++ rest := by
  rw [tabsItemChecks] at h
  cases hbc : bar.children with
  | none => rw [hbc] at h; cases h
  | some bcs =>
    rw [hbc] at h
    cases hpc : pages.children with
    | none => rw [hpc] at h; cases h
    | some pcs =>
      rw [hpc] at h
      cases h
      exact append_four_front _ _ _ _ _

/-- The missing-collection step only appends to the diagnostics
accumulated so far. -/
theorem validateTabsRest_ok_front (tabs : Node) (optBar optPages : Option Node)
    (errors : List Diagnostic) (ds : List Diagnostic)
    (h : validateTabsRest tabs optBar optPages errors = .ok ds) :
    ∃ rest, ds = errors ++ rest := by
  cases optBar with
  | some bar =>
    cases optPages with
    | some pages => exact tabsItemChecks_ok_front tabs bar pages errors ds h
    | none =>
      rw [validateTabsRest] at h
      cases hP : tabs.position with
      | none => rw [hP] at h; cases h
      | some P => rw [hP] at h; cases h; exact ⟨_, rfl⟩
  | none =>
    cases optPages with
    | some pages =>
      rw [validateTabsRest] at h
      cases hP : tabs.position with
      | none => rw [hP] at h; cases h
      | some P => rw [hP] at h; cases h; exact ⟨_, rfl⟩
    | none =>
      rw [validateTabsRest] at h
      cases hP : tabs.position with
      | none => rw [hP] at h; cases h
      | some P => rw [hP] at h; cases h; exact ⟨_, rfl⟩

/-- The whole structural step only appends to the disallowed-children
diagnostics. -/
theorem tabsStructureCheck_ok_front (tabs : Node) (cs : List Node)
    (errors : List Diagnostic) (ds : List Diagnostic)
    (h : tabsStructureCheck tabs cs errors = .ok ds) :
    ∃ rest, ds = errors ++ rest := by
  rw [tabsStructureCheck] at h
  by_cases h1 : (tabsBarListOf cs).length > 1
  · rw [if_pos h1] at h; cases h
  · rw [if_neg h1] at h
    by_cases h2 : (tabsPagesListOf cs).length > 1
    · rw [if_pos h2] at h; cases h
    · rw [if_neg h2] at h
      exact validateTabsRest_ok_front tabs _ _ errors ds h

/-- C6: whenever the Tabs validator returns at all on a wrapper with a
children list, the emitted diagnostic list opens with exactly one
child-anchored diagnostic per immediate child that is neither a bar nor
a pages nor an empty paragraph, in child order; empty-paragraph children
are skipped by that filter and contribute nothing. -/
theorem tabs_non_collection_children_diags (tabs : Node) (cs : List Node)
    (ds : List Diagnostic)
    (hcs : tabs.children = some cs)
    (h : validateTabsNode tabs = .ok ds) :
    ds.take (nonTabChildren cs).length =
      (nonTabChildren cs).map (mkChildDiag tabsChildReason) := by
  simp only [validateTabsNode, hcs] at h
  cases hm : mapE (childDiagE tabsChildReason) (nonTabChildren cs) with
  | error e => rw [hm] at h; cases h
  | ok e1 =>
    rw [hm] at h
    have he1 : e1 = (nonTabChildren cs).map (mkChildDiag tabsChildReason) :=
      mapE_childDiagE_ok_inv tabsChildReason _ e1 hm
    obtain ⟨rest, hrest⟩ := tabsStructureCheck_ok_front tabs cs e1 ds h
    rw [hrest, he1]
    have hlen : (nonTabChildren cs).length =
        ((nonTabChildren cs).map (mkChildDiag tabsChildReason)).length := by
      rw [List.length_map]
    rw [hlen, List.take_left]

/-- Witness: on the sample wrapper holding a heading, an empty
paragraph, a bar and pages, the emitted list opens with exactly the
heading diagnostic; the empty paragraph contributes none. -/
theorem tabs_non_collection_children_diags_witness :
    ([{ line := some 2, column := some 1,
        reason := tabsChildPre ++ "heading",
        type := VALIDATION_ERROR }] : List Diagnostic).take
        (nonTabChildren [sampleHeading, sampleParagraph "" 3 1,
          barWith (samplePosition 4 1) [sampleBarItem "a"],
          pagesWith (samplePosition 5 1) [samplePageItem "a"]]).length =
      (nonTabChildren [sampleHeading, sampleParagraph "" 3 1,
          barWith (samplePosition 4 1) [sampleBarItem "a"],
          pagesWith (samplePosition 5 1) [samplePageItem "a"]]).map
        (mkChildDiag tabsChildReason) := by
  have h := tabs_non_collection_children_diags c6Tabs
    [sampleHeading, sampleParagraph "" 3 1,
     barWith (samplePosition 4 1) [sampleBarItem "a"],
     pagesWith (samplePosition 5 1) [samplePageItem "a"]]
    ([{ line := some 2, column := some 1,
        reason := tabsChildPre ++ "heading",
        type := VALIDATION_ERROR },
      { line := some 1, column := some 1,
        reason := barDupePre ++ ("zz" ++ barDupeSuf),
        type := VALIDATION_ERROR }].take 1)
    rfl (by rfl)
  exact h

/-- C8 counterexample: on a paragraph holding two embedded newlines the
descriptor output keeps the second newline, so it differs from the
all-newlines-stripped rendering. -/
theorem nodeDescriptor_keeps_second_newline :
    nodeDescriptor twoNewlineParagraph = "\x22ab\nc\x22" ∧
    nodeDescriptor twoNewlineParagraph ≠ specParagraphDescription twoNewlineParagraph ∧
    specParagraphDescription twoNewlineParagraph = "\x22abc\x22" :=
  ⟨rfl, by decide, rfl⟩

/-- Truncation leaves a short text unchanged. -/
theorem truncate30_of_le (t : String) (h : t.length ≤ 30) : truncate30 t = t := by
  simp only [truncate30]
  have htake : t.data.take 30 = t.data :=
    List.take_of_length_le h
  rw [htake]
  simp

/-- Truncation cuts a long text at 30 characters and appends dots. -/
theorem truncate30_of_lt (t : String) (h : 30 < t.length) :
    truncate30 t = String.mk (t.data.take 30) ++ "..." := by
  simp only [truncate30]
  have hld : t.length = t.data.length := rfl
  have hcond : ((String.mk (t.data.take 30)).length != t.length) = true := by
    simp only [String.length_mk, List.length_take, bne_iff_ne, ne_eq]
    omega
  rw [if_pos hcond]

/-- C8 amended: the descriptor never fails; a component renders as its
bracketed name, a paragraph renders as the quoted flattened text with
only the first newline removed, truncated to 30 characters with dots
appended exactly when truncation occurred, and any other node renders
as its type tag. -/
theorem nodeDescriptor_total_spec (n : Node) :
    (n.type = "mdxBlockElement" → ∀ nm, n.name = some nm →
      nodeDescriptor n = "<" ++ nm ++ ">") ∧
    (n.type = "paragraph" →
      ((String.mk (removeFirstNewline (getNodeText n).data)).length ≤ 30 →
        nodeDescriptor n =
          "\x22" ++ String.mk (removeFirstNewline (getNodeText n).data) ++ "\x22") ∧
      (30 < (String.mk (removeFirstNewline (getNodeText n).data)).length →
        nodeDescriptor n =
          "\x22" ++ (String.mk ((removeFirstNewline (getNodeText n).data).take 30)
            ++ "...") ++ "\x22")) ∧
    (n.type ≠ "mdxBlockElement" → n.type ≠ "paragraph" → nodeDescriptor n = n.type) := by
  refine ⟨?_, ?_, ?_⟩
  · intro h nm hnm
    rw [nodeDescriptor, if_pos (by rw [h]; decide)]
    rw [hnm]
    rfl
  · intro h
    have hne : ¬(n.type == "mdxBlockElement") = true := by rw [h]; decide
    constructor
    · intro hlen
      rw [nodeDescriptor, if_neg hne, if_pos (by rw [h]; decide)]
      show "\x22" ++ truncate30 (String.mk (removeFirstNewline (getNodeText n).data))
        ++ "\x22" = _
      rw [truncate30_of_le _ hlen]
    · intro hlen
      rw [nodeDescriptor, if_neg hne, if_pos (by rw [h]; decide)]
      show "\x22" ++ truncate30 (String.mk (removeFirstNewline (getNodeText n).data))
        ++ "\x22" = _
      rw [truncate30_of_lt _ hlen]
  · intro h1 h2
    rw [nodeDescriptor, if_neg (by simpa using h1), if_neg (by simpa using h2)]

/-- Witness: the amended descriptor policy evaluated on the sample
two-newline paragraph. -/
theorem nodeDescriptor_total_spec_witness :
    nodeDescriptor twoNewlineParagraph =
      "\x22" ++ String.mk (removeFirstNewline (getNodeText twoNewlineParagraph).data)
        ++ "\x22" :=
  ((nodeDescriptor_total_spec twoNewlineParagraph).2.1 rfl).1 (by decide)

/-- Inserting an item with no `id` attribute anywhere among a
collection's children leaves the collected id attributes unchanged. -/
theorem itemIdAttrs_insert_idless (nm : String) (l1 l2 : List Node) (it : Node)
    (hid : it.attributes.filter (fun a => a.name == "id") = []) :
    itemIdAttrs nm (l1 ++ it :: l2) = itemIdAttrs nm (l1 ++ l2) := by
  rw [itemIdAttrs, itemIdAttrs, List.filter_append, List.filter_append, List.filter_cons]
  by_cases hit : it.name == some nm
  · rw [if_pos hit]
    simp only [List.flatMap_append, List.flatMap_cons, List.filter_append, hid]
    simp
  · rw [if_neg hit]

/-- C10: a bar item or page item carrying no `id` attribute contributes
no identifier and no diagnostic: inserting such an item among the bar
items, or among the page items, leaves the whole validator output for
the wrapper unchanged. -/
theorem idless_item_invisible (P BP PP : Position) (l1 l2 pcs bcs : List Node)
    (it : Node)
    (hid : it.attributes.filter (fun a => a.name == "id") = []) :
    validateTabsNode (tabsWith P (barWith BP (l1 ++ it :: l2)) (pagesWith PP pcs)) =
      validateTabsNode (tabsWith P (barWith BP (l1 ++ l2)) (pagesWith PP pcs)) ∧
    validateTabsNode (tabsWith P (barWith BP bcs) (pagesWith PP (l1 ++ it :: l2))) =
      validateTabsNode (tabsWith P (barWith BP bcs) (pagesWith PP (l1 ++ l2))) := by
  constructor
  · have hn1 : nonTabChildren [barWith BP (l1 ++ it :: l2), pagesWith PP pcs] = [] := rfl
    have hn2 : nonTabChildren [barWith BP (l1 ++ l2), pagesWith PP pcs] = [] := rfl
    rw [validateTabsNode_ok_eq
        (tabsWith P (barWith BP (l1 ++ it :: l2)) (pagesWith PP pcs))
        (barWith BP (l1 ++ it :: l2)) (pagesWith PP pcs)
        [barWith BP (l1 ++ it :: l2), pagesWith PP pcs] (l1 ++ it :: l2) pcs
        rfl rfl rfl rfl rfl (by intro c hc; rw [hn1] at hc; cases hc)]
    rw [validateTabsNode_ok_eq
        (tabsWith P (barWith BP (l1 ++ l2)) (pagesWith PP pcs))
        (barWith BP (l1 ++ l2)) (pagesWith PP pcs)
        [barWith BP (l1 ++ l2), pagesWith PP pcs] (l1 ++ l2) pcs
        rfl rfl rfl rfl rfl (by intro c hc; rw [hn2] at hc; cases hc)]
    simp only [tabsOkDiags, hn1, hn2, barIdValues, pageIdValues,
      itemIdAttrs_insert_idless "TabsBarItem" l1 l2 it hid, tabsWith, Node.position]
  · have hn1 : nonTabChildren [barWith BP bcs, pagesWith PP (l1 ++ it :: l2)] = [] := rfl
    have hn2 : nonTabChildren [barWith BP bcs, pagesWith PP (l1 ++ l2)] = [] := rfl
    rw [validateTabsNode_ok_eq
        (tabsWith P (barWith BP bcs) (pagesWith PP (l1 ++ it :: l2)))
        (barWith BP bcs) (pagesWith PP (l1 ++ it :: l2))
        [barWith BP bcs, pagesWith PP (l1 ++ it :: l2)] bcs (l1 ++ it :: l2)
        rfl rfl rfl rfl rfl (by intro c hc; rw [hn1] at hc; cases hc)]
    rw [validateTabsNode_ok_eq
        (tabsWith P (barWith BP bcs) (pagesWith PP (l1 ++ l2)))
        (barWith BP bcs) (pagesWith PP (l1 ++ l2))
        [barWith BP bcs, pagesWith PP (l1 ++ l2)] bcs (l1 ++ l2)
        rfl rfl rfl rfl rfl (by intro c hc; rw [hn2] at hc; cases hc)]
    simp only [tabsOkDiags, hn1, hn2, barIdValues, pageIdValues,
      itemIdAttrs_insert_idless "TabsPageItem" l1 l2 it hid, tabsWith, Node.position]

/-- Witness: inserting the id-less bar item and the id-less page item
into the pairing sample changes nothing. -/
theorem idless_item_invisible_witness :
    validateTabsNode (tabsWith (samplePosition 1 1)
        (barWith (samplePosition 2 1) ([sampleBarItem "a"] ++ c10BarItem :: []))
        (pagesWith (samplePosition 5 1) [samplePageItem "a"])) =
      validateTabsNode (tabsWith (samplePosition 1 1)
        (barWith (samplePosition 2 1) ([sampleBarItem "a"] ++ []))
        (pagesWith (samplePosition 5 1) [samplePageItem "a"])) ∧
    validateTabsNode (tabsWith (samplePosition 1 1)
        (barWith (samplePosition 2 1) [sampleBarItem "a"])
        (pagesWith (samplePosition 5 1) ([samplePageItem "a"] ++ c10PageItem :: []))) =
      validateTabsNode (tabsWith (samplePosition 1 1)
        (barWith (samplePosition 2 1) [sampleBarItem "a"])
        (pagesWith (samplePosition 5 1) ([samplePageItem "a"] ++ []))) := by
  have h1 := idless_item_invisible (samplePosition 1 1) (samplePosition 2 1)
    (samplePosition 5 1) [sampleBarItem "a"] [] [samplePageItem "a"]
    [sampleBarItem "a"] c10BarItem (by decide)
  have h2 := idless_item_invisible (samplePosition 1 1) (samplePosition 2 1)
    (samplePosition 5 1) [samplePageItem "a"] [] [samplePageItem "a"]
    [sampleBarItem "a"] c10PageItem (by decide)
  exact ⟨h1.1, h2.2⟩
